import Mathlib

/-!
# Gothic Vibe Shop: reveal-on-scroll script

A shallow embedding of `static/js/script.js`.  The script registers one
`DOMContentLoaded` handler.  The handler logs a message, selects every element
of class `product-img`, creates one `IntersectionObserver` with threshold `0.1`
whose callback reveals the targets of intersecting entries, and then hides and
observes every selected element.

Modelling choices.

* The document is the list of its elements in document order.  A JavaScript
  reference to an element is its position in that list, so two references are
  the same object exactly when they are the same number.
* `element.style` is the record of the three inline properties the script
  writes.  Each property holds the declared text.  Assigning the number `0` or
  `1` to `style.opacity` stores its decimal text, as the CSSOM setter does.
* The host owns the intersection observers.  An observer is its threshold and
  its list of observation targets; a reference to an observer is its position
  in `Window.observers`, the observers whose callback is the callback of this
  script.
* The host calls the observer callback with a batch of entries.  The callback
  itself is the function `observerCallback`; when and with which entries it is
  called is the host's choice and is universally quantified in the theorems.
-/

namespace GothicVibeShop

/-! ## Data model -/

/-- Inline style of an element: the three properties the script assigns. -/
structure Style where
  opacity : String
  transform : String
  transition : String
deriving DecidableEq, Repr

/-- An element of the page: its class names and its inline style. -/
structure Element where
  classList : List String
  style : Style
deriving DecidableEq, Repr

/-- Host object created by `new IntersectionObserver(callback, { threshold })`. -/
structure IntersectionObserver where
  threshold : ℚ
  observationTargets : List Nat
deriving DecidableEq

/-- One record of a batch handed to the observer callback. -/
structure IntersectionObserverEntry where
  target : Nat
  isIntersecting : Bool
  intersectionRatio : ℚ
deriving DecidableEq

/-- Errors the host interfaces used by the script can throw: the observer
constructor rejects a threshold outside `[0, 1]`. -/
inductive JSError where
  | rangeError
deriving DecidableEq, Repr

/-- Everything the script reads or writes: the document, the console output and
the observers whose callback is the callback of this script. -/
structure Window where
  document : List Element
  console : List String
  observers : List IntersectionObserver
deriving DecidableEq

/-! ## Host operations -/

/-- Replace the item at position `n` by its image under `f`; a position outside
the list changes nothing. -/
def modifyAt {α : Type} (f : α → α) : Nat → List α → List α
  | _, [] => []
  | 0, a :: rest => f a :: rest
  | n + 1, a :: rest => a :: modifyAt f n rest

/-- Write through `element.style`: apply `f` to the style of an element. -/
def Element.withStyle (f : Style → Style) (el : Element) : Element :=
  { el with style := f el.style }

/-- The statement `target.style.opacity = value`. -/
def setOpacity (target : Nat) (value : String) (w : Window) : Window :=
  { w with document :=
      modifyAt (Element.withStyle fun s => { s with opacity := value }) target w.document }

/-- The statement `target.style.transform = value`. -/
def setTransform (target : Nat) (value : String) (w : Window) : Window :=
  { w with document :=
      modifyAt (Element.withStyle fun s => { s with transform := value }) target w.document }

/-- The statement `target.style.transition = value`. -/
def setTransition (target : Nat) (value : String) (w : Window) : Window :=
  { w with document :=
      modifyAt (Element.withStyle fun s => { s with transition := value }) target w.document }

/-- The call `console.log(message)`. -/
def consoleLog (message : String) (w : Window) : Window :=
  { w with console := w.console ++ [message] }

/-- Whether an element matches the class selector `.cls`. -/
def Element.matchesClass (cls : String) (el : Element) : Bool :=
  el.classList.contains cls

/-- The call `document.querySelectorAll('.cls')`: references to the matching
elements, in document order. -/
def querySelectorAll (cls : String) (doc : List Element) : List Nat :=
  (List.range doc.length).filter fun i =>
    match doc[i]? with
    | some el => el.matchesClass cls
    | none => false

/-- The expression `new IntersectionObserver(callback, { threshold })`.  The
host throws a `RangeError` for a threshold outside `[0, 1]`; otherwise it
creates an observer without targets and returns a reference to it. -/
def newIntersectionObserver (threshold : ℚ) (w : Window) : Except JSError (Nat × Window) :=
  if 0 ≤ threshold ∧ threshold ≤ 1 then
    .ok (w.observers.length,
      { w with observers := w.observers ++ [{ threshold := threshold, observationTargets := [] }] })
  else
    .error .rangeError

/-- Host step of `observe`: a target already observed is not added again. -/
def IntersectionObserver.observe (o : IntersectionObserver) (target : Nat) :
    IntersectionObserver :=
  if target ∈ o.observationTargets then o
  else { o with observationTargets := o.observationTargets ++ [target] }

/-- The call `observer.observe(target)`. -/
def observe (observer : Nat) (target : Nat) (w : Window) : Window :=
  { w with observers := modifyAt (fun o => o.observe target) observer w.observers }

/-! ## The script -/

/-- Body of `entries.forEach(entry => ...)` in the observer callback. -/
def revealEntry (w : Window) (entry : IntersectionObserverEntry) : Window :=
  if entry.isIntersecting then
    setTransform entry.target "translateY(0)" (setOpacity entry.target "1" w)
  else
    w

/-- The callback given to `new IntersectionObserver`. -/
def observerCallback (entries : List IntersectionObserverEntry) (w : Window) : Window :=
  entries.foldl revealEntry w

/-- Body of `productImages.forEach(img => ...)`. -/
def initImage (observer : Nat) (w : Window) (img : Nat) : Window :=
  observe observer img
    (setTransition img "opacity 0.5s ease, transform 0.5s ease"
      (setTransform img "translateY(20px)"
        (setOpacity img "0" w)))

/-- The `DOMContentLoaded` handler. -/
def onDOMContentLoaded (w : Window) : Except JSError Window := do
  let w := consoleLog "Gothic Vibe Shop loaded successfully!" w
  let productImages := querySelectorAll "product-img" w.document
  let (observer, w) ← newIntersectionObserver (1 / 10) w
  pure (productImages.foldl (initImage observer) w)

/-- The host delivers a sequence of callback batches, one callback per batch. -/
def runCallbacks (batches : List (List IntersectionObserverEntry)) (w : Window) : Window :=
  batches.foldl (fun acc entries => observerCallback entries acc) w

/-! ## Vocabulary of the properties -/

/-- Inline style of the element behind a reference, if the reference is valid. -/
def styleOf (w : Window) (target : Nat) : Option Style :=
  (w.document[target]?).map Element.style

/-- The reference denotes an element of the page selected by `.product-img`. -/
def Selected (w : Window) (target : Nat) : Prop :=
  ∃ el, w.document[target]? = some el ∧ el.matchesClass "product-img" = true

/-- The element is registered with one of the script's observers. -/
def Observed (w : Window) (target : Nat) : Prop :=
  ∃ o, o ∈ w.observers ∧ target ∈ o.observationTargets

/-- Guarantee of the host on an entry that observer `o` delivers: the target is
one of the observation targets of `o`, the visible ratio lies in `[0, 1]`, and
`isIntersecting` is set whenever the ratio is positive and has reached the
threshold `o` was configured with.  A ratio below that threshold leaves the
flag to the host. -/
def IntersectionObserverEntry.DeliveredBy (e : IntersectionObserverEntry)
    (o : IntersectionObserver) : Prop :=
  e.target ∈ o.observationTargets ∧
    0 ≤ e.intersectionRatio ∧ e.intersectionRatio ≤ 1 ∧
    (0 < e.intersectionRatio → o.threshold ≤ e.intersectionRatio → e.isIntersecting = true)

/-- What the callback does to one element once the whole batch is processed. -/
def revealElement (el : Element) : Element :=
  el.withStyle fun s => { s with opacity := "1", transform := "translateY(0)" }

/-- What the initialisation loop does to the style of one selected element. -/
def hideElement (el : Element) : Element :=
  el.withStyle fun _ =>
    { opacity := "0", transform := "translateY(20px)",
      transition := "opacity 0.5s ease, transform 0.5s ease" }

/-- Whether a batch holds an intersecting entry for the given element. -/
def revealsTarget (entries : List IntersectionObserverEntry) (target : Nat) : Bool :=
  entries.any fun e => e.isIntersecting && e.target == target

/-- States of the page once the script has run: the load handler ran on a page
`w0` on which the script had not created an observer yet, and afterwards the
host called the observer callback any number of times, each time with entries
for observed elements. -/
inductive Reachable (w0 : Window) : Window → Prop where
  | load {w1 : Window} (hfresh : w0.observers = [])
      (hload : onDOMContentLoaded w0 = .ok w1) : Reachable w0 w1
  | callback {w : Window} (entries : List IntersectionObserverEntry)
      (hreach : Reachable w0 w) (hobs : ∀ e ∈ entries, Observed w e.target) :
      Reachable w0 (observerCallback entries w)

/-- The style the initialisation loop gives to a selected element. -/
def hiddenStyle : Style :=
  { opacity := "0", transform := "translateY(20px)",
    transition := "opacity 0.5s ease, transform 0.5s ease" }

/-- A small page: a product image, a banner that is not one, and a second
product image that carries inline style of its own. -/
def samplePage : Window :=
  { document :=
      [ { classList := ["product-img"], style := { opacity := "", transform := "", transition := "" } },
        { classList := ["banner"], style := { opacity := "0.8", transform := "", transition := "" } },
        { classList := ["card", "product-img"],
          style := { opacity := "0.3", transform := "rotate(5deg)", transition := "none" } } ]
    console := []
    observers := [] }

/-- A page without any product image. -/
def plainPage : Window :=
  { document :=
      [ { classList := ["banner"], style := { opacity := "0.8", transform := "", transition := "" } } ]
    console := []
    observers := [] }

/-- The sample page after the load handler. -/
def sampleLoaded : Window :=
  { document :=
      [ { classList := ["product-img"], style := hiddenStyle },
        { classList := ["banner"], style := { opacity := "0.8", transform := "", transition := "" } },
        { classList := ["card", "product-img"], style := hiddenStyle } ]
    console := ["Gothic Vibe Shop loaded successfully!"]
    observers := [{ threshold := 1 / 10, observationTargets := [0, 2] }] }

/-- A batch for the sample page: the first image is a quarter visible, the
second image is out of view. -/
def sampleBatch : List IntersectionObserverEntry :=
  [ { target := 0, isIntersecting := true, intersectionRatio := 1 / 4 },
    { target := 2, isIntersecting := false, intersectionRatio := 0 } ]

/-! ## Lemmas on the host operations -/

theorem length_modifyAt {α : Type} (f : α → α) (n : Nat) (l : List α) :
    (modifyAt f n l).length = l.length := by
  induction l generalizing n with
  | nil => cases n <;> rfl
  | cons a rest ih =>
    cases n with
    | zero => rfl
    | succ k => simp [modifyAt, ih]

theorem getElem?_modifyAt {α : Type} (f : α → α) (n i : Nat) (l : List α) :
    (modifyAt f n l)[i]? = if i = n then (l[i]?).map f else l[i]? := by
  induction l generalizing n i with
  | nil => cases n <;> simp [modifyAt]
  | cons a rest ih =>
    cases n with
    | zero => cases i <;> simp [modifyAt]
    | succ k => cases i <;> simp [modifyAt, ih]

theorem modifyAt_append_singleton {α : Type} (f : α → α) (l : List α) (a : α) :
    modifyAt f l.length (l ++ [a]) = l ++ [f a] := by
  induction l with
  | nil => rfl
  | cons b rest ih => simp [modifyAt, ih]

theorem modifyAt_comp {α : Type} (f g : α → α) (n : Nat) (l : List α) :
    modifyAt f n (modifyAt g n l) = modifyAt (fun a => f (g a)) n l := by
  induction l generalizing n with
  | nil => cases n <;> rfl
  | cons a rest ih =>
    cases n with
    | zero => rfl
    | succ k => simp [modifyAt, ih]

theorem mem_querySelectorAll (cls : String) (doc : List Element) (i : Nat) :
    i ∈ querySelectorAll cls doc ↔ ∃ el, doc[i]? = some el ∧ el.matchesClass cls = true := by
  unfold querySelectorAll
  rw [List.mem_filter, List.mem_range]
  constructor
  · rintro ⟨_, h⟩
    cases hd : doc[i]? with
    | none => simp [hd] at h
    | some el => exact ⟨el, rfl, by simpa [hd] using h⟩
  · rintro ⟨el, hd, hm⟩
    have hlt : i < doc.length := by
      by_contra hge
      rw [List.getElem?_eq_none (Nat.le_of_not_lt hge)] at hd
      cases hd
    exact ⟨hlt, by simp [hd, hm]⟩

theorem nodup_querySelectorAll (cls : String) (doc : List Element) :
    (querySelectorAll cls doc).Nodup :=
  (List.nodup_range doc.length).filter _

/-! ## Lemmas on the observer callback -/

theorem Window.eq_of_fields {a b : Window} (hd : a.document = b.document)
    (hc : a.console = b.console) (ho : a.observers = b.observers) : a = b := by
  cases a; cases b; simp_all

theorem revealElement_idem (el : Element) : revealElement (revealElement el) = revealElement el :=
  rfl

theorem revealEntry_console (w : Window) (e : IntersectionObserverEntry) :
    (revealEntry w e).console = w.console := by
  unfold revealEntry; split <;> rfl

theorem revealEntry_observers (w : Window) (e : IntersectionObserverEntry) :
    (revealEntry w e).observers = w.observers := by
  unfold revealEntry; split <;> rfl

theorem revealEntry_document (w : Window) (e : IntersectionObserverEntry) (i : Nat) :
    (revealEntry w e).document[i]? =
      (w.document[i]?).map fun el =>
        if (e.isIntersecting && e.target == i) = true then revealElement el else el := by
  unfold revealEntry
  cases hI : e.isIntersecting with
  | false => simp
  | true =>
    simp only [setTransform, setOpacity, modifyAt_comp, getElem?_modifyAt, if_true, Bool.true_and,
      beq_iff_eq]
    by_cases h : i = e.target
    · subst h
      cases w.document[e.target]? <;> simp [revealElement, Element.withStyle]
    · have h2 : ¬ e.target = i := fun hh => h hh.symm
      simp [h, h2]

theorem observerCallback_nil (w : Window) : observerCallback [] w = w := rfl

theorem observerCallback_cons (e : IntersectionObserverEntry)
    (es : List IntersectionObserverEntry) (w : Window) :
    observerCallback (e :: es) w = observerCallback es (revealEntry w e) := rfl

theorem observerCallback_append (es1 es2 : List IntersectionObserverEntry) (w : Window) :
    observerCallback (es1 ++ es2) w = observerCallback es2 (observerCallback es1 w) := by
  simp [observerCallback, List.foldl_append]

theorem observerCallback_console (es : List IntersectionObserverEntry) (w : Window) :
    (observerCallback es w).console = w.console := by
  induction es generalizing w with
  | nil => rfl
  | cons e es ih => rw [observerCallback_cons, ih, revealEntry_console]

theorem observerCallback_observers (es : List IntersectionObserverEntry) (w : Window) :
    (observerCallback es w).observers = w.observers := by
  induction es generalizing w with
  | nil => rfl
  | cons e es ih => rw [observerCallback_cons, ih, revealEntry_observers]

/-- Effect of one callback on the element behind any reference: it is revealed
when the batch holds an intersecting entry for it, and left alone otherwise. -/
theorem observerCallback_document (es : List IntersectionObserverEntry) (w : Window) (i : Nat) :
    (observerCallback es w).document[i]? =
      (w.document[i]?).map fun el =>
        if revealsTarget es i = true then revealElement el else el := by
  induction es generalizing w with
  | nil => simp [observerCallback_nil, revealsTarget]
  | cons e es ih =>
    rw [observerCallback_cons, ih, revealEntry_document]
    cases hd : w.document[i]? with
    | none => rfl
    | some el =>
      simp only [Option.map_some', revealsTarget, List.any_cons]
      by_cases h1 : (e.isIntersecting && e.target == i) = true <;>
        by_cases h2 : (es.any fun e => e.isIntersecting && e.target == i) = true <;>
          simp [h1, h2, revealElement_idem]

theorem runCallbacks_nil (w : Window) : runCallbacks [] w = w := rfl

theorem runCallbacks_cons (b : List IntersectionObserverEntry)
    (bs : List (List IntersectionObserverEntry)) (w : Window) :
    runCallbacks (b :: bs) w = runCallbacks bs (observerCallback b w) := rfl

theorem runCallbacks_console (bs : List (List IntersectionObserverEntry)) (w : Window) :
    (runCallbacks bs w).console = w.console := by
  induction bs generalizing w with
  | nil => rfl
  | cons b bs ih => rw [runCallbacks_cons, ih, observerCallback_console]

theorem runCallbacks_observers (bs : List (List IntersectionObserverEntry)) (w : Window) :
    (runCallbacks bs w).observers = w.observers := by
  induction bs generalizing w with
  | nil => rfl
  | cons b bs ih => rw [runCallbacks_cons, ih, observerCallback_observers]

/-- A run of callbacks is one callback on the concatenation of its batches. -/
theorem runCallbacks_eq_join (bs : List (List IntersectionObserverEntry)) (w : Window) :
    runCallbacks bs w = observerCallback bs.flatten w := by
  induction bs generalizing w with
  | nil => rfl
  | cons b bs ih => rw [runCallbacks_cons, ih, List.flatten_cons, observerCallback_append]

/-! ## Lemmas on the load handler -/

theorem hideElement_idem (el : Element) : hideElement (hideElement el) = hideElement el := rfl

theorem initImage_console (k : Nat) (w : Window) (img : Nat) :
    (initImage k w img).console = w.console := rfl

theorem initImage_observers (k : Nat) (w : Window) (img : Nat) :
    (initImage k w img).observers = modifyAt (fun o => o.observe img) k w.observers := rfl

theorem initImage_document (k : Nat) (w : Window) (img i : Nat) :
    (initImage k w img).document[i]? =
      (w.document[i]?).map fun el => if i = img then hideElement el else el := by
  simp only [initImage, observe, setTransition, setTransform, setOpacity, modifyAt_comp,
    getElem?_modifyAt]
  by_cases h : i = img
  · subst h
    cases w.document[i]? <;> simp [hideElement, Element.withStyle]
  · simp [h]

theorem foldl_initImage_console (k : Nat) (imgs : List Nat) (w : Window) :
    (imgs.foldl (initImage k) w).console = w.console := by
  induction imgs generalizing w with
  | nil => rfl
  | cons img rest ih => rw [List.foldl_cons, ih, initImage_console]

theorem foldl_initImage_observers (k : Nat) (imgs : List Nat) (w : Window) :
    (imgs.foldl (initImage k) w).observers =
      modifyAt (fun o => imgs.foldl IntersectionObserver.observe o) k w.observers := by
  induction imgs generalizing w with
  | nil =>
    have hid : ∀ (n : Nat) (l : List IntersectionObserver), modifyAt (fun o => o) n l = l := by
      intro n l
      induction l generalizing n with
      | nil => cases n <;> rfl
      | cons a rest ih => cases n <;> simp [modifyAt, ih]
    simp [hid]
  | cons img rest ih => rw [List.foldl_cons, ih, initImage_observers, modifyAt_comp]; rfl

theorem foldl_initImage_document (k : Nat) (imgs : List Nat) (w : Window) (i : Nat) :
    (imgs.foldl (initImage k) w).document[i]? =
      (w.document[i]?).map fun el => if i ∈ imgs then hideElement el else el := by
  induction imgs generalizing w with
  | nil => simp
  | cons img rest ih =>
    rw [List.foldl_cons, ih, initImage_document]
    cases hd : w.document[i]? with
    | none => rfl
    | some el =>
      by_cases h1 : i = img <;> by_cases h2 : i ∈ rest <;> simp [h1, h2, hideElement_idem]

theorem foldl_observe_of_nodup (imgs : List Nat) (o : IntersectionObserver)
    (h : (o.observationTargets ++ imgs).Nodup) :
    imgs.foldl IntersectionObserver.observe o =
      { o with observationTargets := o.observationTargets ++ imgs } := by
  induction imgs generalizing o with
  | nil => simp
  | cons img rest ih =>
    have hnot : img ∉ o.observationTargets := by
      intro hmem
      exact (List.nodup_append.mp h).2.2 hmem (List.mem_cons_self _ _)
    have hstep : o.observe img =
        { o with observationTargets := o.observationTargets ++ [img] } := by
      simp [IntersectionObserver.observe, hnot]
    rw [List.foldl_cons, hstep, ih]
    · simp
    · simpa using h

theorem newIntersectionObserver_tenth (w : Window) :
    newIntersectionObserver (1 / 10) w =
      .ok (w.observers.length,
        { w with observers :=
            w.observers ++ [{ threshold := 1 / 10, observationTargets := [] }] }) := by
  unfold newIntersectionObserver
  rw [if_pos]
  norm_num

/-- The load handler never throws: the threshold `1/10` is accepted by the
host, and nothing else in the handler can fail. -/
theorem onDOMContentLoaded_eq (w : Window) :
    onDOMContentLoaded w =
      .ok ((querySelectorAll "product-img" w.document).foldl (initImage w.observers.length)
        { document := w.document
          console := w.console ++ ["Gothic Vibe Shop loaded successfully!"]
          observers := w.observers ++ [{ threshold := 1 / 10, observationTargets := [] }] }) := by
  simp only [onDOMContentLoaded, newIntersectionObserver_tenth]
  rfl

/-- The load handler never throws, and its result is: the message appended to
the console, one new observer with threshold `1/10` observing the selected
elements in document order, and every selected element hidden. -/
theorem onDOMContentLoaded_spec (w : Window) :
    ∃ w1, onDOMContentLoaded w = .ok w1 ∧
      w1.console = w.console ++ ["Gothic Vibe Shop loaded successfully!"] ∧
      w1.observers = w.observers ++
        [{ threshold := 1 / 10,
           observationTargets := querySelectorAll "product-img" w.document }] ∧
      ∀ i : Nat, w1.document[i]? =
        (w.document[i]?).map fun el =>
          if el.matchesClass "product-img" = true then hideElement el else el := by
  refine ⟨_, onDOMContentLoaded_eq w, ?_, ?_, ?_⟩
  · rw [foldl_initImage_console]
  · rw [foldl_initImage_observers]
    show modifyAt _ w.observers.length (w.observers ++ [_]) = _
    rw [modifyAt_append_singleton, foldl_observe_of_nodup]
    · simp
    · simpa using nodup_querySelectorAll "product-img" w.document
  · intro i
    rw [foldl_initImage_document]
    show Option.map _ w.document[i]? = _
    cases hd : w.document[i]? with
    | none => rfl
    | some el =>
      have hmem := mem_querySelectorAll "product-img" w.document i
      simp only [Option.map_some', Option.some.injEq]
      by_cases hm : el.matchesClass "product-img" = true
      · rw [if_pos (hmem.mpr ⟨el, hd, hm⟩), if_pos hm]
      · rw [if_neg, if_neg hm]
        rintro hin
        obtain ⟨el2, h2, hm2⟩ := hmem.mp hin
        rw [hd] at h2
        cases h2
        exact hm hm2

theorem onDOMContentLoaded_samplePage : onDOMContentLoaded samplePage = .ok sampleLoaded := by
  rw [onDOMContentLoaded_eq]
  rfl

theorem reachable_sampleLoaded : Reachable samplePage sampleLoaded :=
  Reachable.load rfl onDOMContentLoaded_samplePage

/-! ## Invariant of the reachable states -/

theorem observed_iff_selected_of_observers {w0 w : Window}
    (ho : w.observers =
      [{ threshold := 1 / 10,
         observationTargets := querySelectorAll "product-img" w0.document }]) (t : Nat) :
    Observed w t ↔ Selected w0 t := by
  unfold Observed Selected
  rw [ho, ← mem_querySelectorAll]
  constructor
  · rintro ⟨o, hmem, ht⟩
    rw [List.mem_singleton] at hmem
    subst hmem
    exact ht
  · intro ht
    exact ⟨_, List.mem_singleton.mpr rfl, ht⟩

/-- In every reachable state there is exactly the observer the handler created,
observing the selected elements, and every element of the original page is
still there: untouched when it is not selected, hidden or revealed (with the
declared transition) when it is. -/
theorem Reachable.invariant {w0 w : Window} (h : Reachable w0 w) :
    w.observers =
        [{ threshold := 1 / 10,
           observationTargets := querySelectorAll "product-img" w0.document }] ∧
      ∀ i : Nat, ∃ r : Bool, w.document[i]? =
        (w0.document[i]?).map fun el =>
          if el.matchesClass "product-img" = true then
            (if r = true then revealElement (hideElement el) else hideElement el)
          else el := by
  induction h with
  | load hfresh hload =>
    obtain ⟨w1, hok, _, hobs, hdoc⟩ := onDOMContentLoaded_spec w0
    rw [hload] at hok
    cases hok
    refine ⟨by simpa [hfresh] using hobs, fun i => ⟨false, ?_⟩⟩
    simpa using hdoc i
  | callback entries hreach hobs ih =>
    obtain ⟨ho, hdoc⟩ := ih
    refine ⟨by rw [observerCallback_observers, ho], fun i => ?_⟩
    obtain ⟨r, hr⟩ := hdoc i
    rw [observerCallback_document, hr]
    cases hd : w0.document[i]? with
    | none => exact ⟨r, rfl⟩
    | some el =>
      by_cases hrev : revealsTarget entries i = true
      · obtain ⟨e, hmem, he⟩ := List.any_eq_true.mp hrev
        have hti : e.target = i := by
          have := (Bool.and_eq_true _ _).mp he
          simpa using this.2
        have hsel : Selected w0 i := by
          rw [← observed_iff_selected_of_observers ho, ← hti]
          exact hobs e hmem
        obtain ⟨el2, h2, hm⟩ := hsel
        rw [hd] at h2
        cases h2
        refine ⟨true, ?_⟩
        cases r <;> simp [hrev, hm, revealElement_idem]
      · refine ⟨r, ?_⟩
        simp [hrev]

/-! ## Lemmas shared by the properties -/

theorem revealsTarget_of_mem {entries : List IntersectionObserverEntry}
    {e : IntersectionObserverEntry} (hmem : e ∈ entries) (hint : e.isIntersecting = true) :
    revealsTarget entries e.target = true :=
  List.any_eq_true.mpr ⟨e, hmem, by simp [hint]⟩

theorem revealsTarget_eq_false {entries : List IntersectionObserverEntry} {i : Nat}
    (hnot : ∀ e ∈ entries, e.isIntersecting = true → e.target ≠ i) :
    revealsTarget entries i = false := by
  cases hr : revealsTarget entries i with
  | false => rfl
  | true =>
    obtain ⟨e, hmem, he⟩ := List.any_eq_true.mp hr
    have h2 := (Bool.and_eq_true _ _).mp he
    exact absurd (by simpa using h2.2) (hnot e hmem h2.1)

/-- An intersecting entry of the batch reveals its target, whatever else the
batch holds. -/
theorem styleOf_observerCallback_of_mem {entries : List IntersectionObserverEntry}
    {e : IntersectionObserverEntry} {w : Window} {el : Element} (hmem : e ∈ entries)
    (hint : e.isIntersecting = true) (hd : w.document[e.target]? = some el) :
    styleOf (observerCallback entries w) e.target =
      some { el.style with opacity := "1", transform := "translateY(0)" } := by
  unfold styleOf
  rw [observerCallback_document, hd, revealsTarget_of_mem hmem hint]
  rfl

/-- Two batches that reveal the same targets have the same effect. -/
theorem observerCallback_congr {es1 es2 : List IntersectionObserverEntry}
    (h : ∀ i, revealsTarget es1 i = revealsTarget es2 i) (w : Window) :
    observerCallback es1 w = observerCallback es2 w := by
  apply Window.eq_of_fields
  · apply List.ext_getElem?
    intro i
    rw [observerCallback_document, observerCallback_document, h i]
  · rw [observerCallback_console, observerCallback_console]
  · rw [observerCallback_observers, observerCallback_observers]

theorem revealsTarget_append (es1 es2 : List IntersectionObserverEntry) (i : Nat) :
    revealsTarget (es1 ++ es2) i = (revealsTarget es1 i || revealsTarget es2 i) := by
  simp [revealsTarget]

theorem revealsTarget_perm {es1 es2 : List IntersectionObserverEntry} (h : es1.Perm es2)
    (i : Nat) : revealsTarget es1 i = revealsTarget es2 i := by
  rw [Bool.eq_iff_iff]
  unfold revealsTarget
  rw [List.any_eq_true, List.any_eq_true]
  constructor
  · rintro ⟨e, hmem, he⟩
    exact ⟨e, h.mem_iff.mp hmem, he⟩
  · rintro ⟨e, hmem, he⟩
    exact ⟨e, h.mem_iff.mpr hmem, he⟩

theorem revealsTarget_eq_map (es : List IntersectionObserverEntry) (i : Nat) :
    revealsTarget es i =
      (es.map fun e => (e.target, e.isIntersecting)).any fun p => p.2 && p.1 == i := by
  induction es with
  | nil => rfl
  | cons e es ih =>
    simp only [revealsTarget, List.any_cons, List.map_cons] at ih ⊢
    rw [ih]

theorem flatten_map_singleton {α : Type} (l : List α) : (l.map fun a => [a]).flatten = l := by
  induction l with
  | nil => rfl
  | cons a rest ih => simp [ih]

/-! ## Properties of the load handler -/

/-- C1: after the `DOMContentLoaded` handler has run, every element selected by
`.product-img` has opacity `0`, the non-zero vertical offset
`translateY(20px)` and the transition `opacity 0.5s ease, transform 0.5s ease`,
whatever its style was before. -/
theorem C1_load_hides_selected (w : Window) (i : Nat) (hsel : Selected w i) :
    ∃ w1, onDOMContentLoaded w = .ok w1 ∧
      ∃ s, styleOf w1 i = some s ∧ s.opacity = "0" ∧ s.transform = "translateY(20px)" ∧
        s.transform ≠ "translateY(0)" ∧
        s.transition = "opacity 0.5s ease, transform 0.5s ease" := by
  obtain ⟨w1, hok, _, _, hdoc⟩ := onDOMContentLoaded_spec w
  obtain ⟨el, hd, hm⟩ := hsel
  have hne : (hideElement el).style.transform ≠ "translateY(0)" := by
    show "translateY(20px)" ≠ "translateY(0)"
    decide
  refine ⟨w1, hok, (hideElement el).style, ?_, rfl, rfl, hne, rfl⟩
  unfold styleOf
  rw [hdoc i, hd]
  simp [hm]

theorem C1_load_hides_selected_witness :
    Selected samplePage 2 ∧
      ∃ w1, onDOMContentLoaded samplePage = .ok w1 ∧
        ∃ s, styleOf w1 2 = some s ∧ s.opacity = "0" ∧ s.transform = "translateY(20px)" ∧
          s.transform ≠ "translateY(0)" ∧
          s.transition = "opacity 0.5s ease, transform 0.5s ease" :=
  ⟨⟨_, rfl, rfl⟩, C1_load_hides_selected samplePage 2 ⟨_, rfl, rfl⟩⟩

/-- C5: when no element matches `.product-img`, the load handler returns without
an error, leaves the document (hence every element and its style) as it was,
and the observer it creates has no observation target. -/
theorem C5_load_without_match (w : Window) (hnone : ∀ i, ¬ Selected w i) :
    ∃ w1, onDOMContentLoaded w = .ok w1 ∧ w1.document = w.document ∧
      w1.observers = w.observers ++ [{ threshold := 1 / 10, observationTargets := [] }] := by
  obtain ⟨w1, hok, _, hobs, hdoc⟩ := onDOMContentLoaded_spec w
  refine ⟨w1, hok, ?_, ?_⟩
  · apply List.ext_getElem?
    intro i
    rw [hdoc i]
    cases hd : w.document[i]? with
    | none => rfl
    | some el =>
      have hm : ¬ el.matchesClass "product-img" = true := fun hm => hnone i ⟨el, hd, hm⟩
      simp [hm]
  · have hnil : querySelectorAll "product-img" w.document = [] := by
      apply List.eq_nil_iff_forall_not_mem.mpr
      intro i hi
      exact hnone i ((mem_querySelectorAll _ _ _).mp hi)
    rw [hobs, hnil]

theorem C5_load_without_match_witness :
    (∀ i, ¬ Selected plainPage i) ∧
      ∃ w1, onDOMContentLoaded plainPage = .ok w1 ∧ w1.document = plainPage.document ∧
        w1.observers =
          plainPage.observers ++ [{ threshold := 1 / 10, observationTargets := [] }] :=
  have hnone : ∀ i, ¬ Selected plainPage i := by
    rintro i ⟨el, hd, hm⟩
    match i, hd with
    | 0, hd =>
      cases hd
      exact absurd hm (by decide)
  ⟨hnone, C5_load_without_match plainPage hnone⟩

/-- C6: the load handler creates exactly one observer, configured with threshold
`0.1`; after the handler its observation targets are exactly the elements
selected by `.product-img`, each registered once. -/
theorem C6_observed_exactly_selected (w : Window) :
    ∃ w1 o, onDOMContentLoaded w = .ok w1 ∧ w1.observers = w.observers ++ [o] ∧
      o.threshold = 1 / 10 ∧ o.observationTargets.Nodup ∧
      ∀ t, t ∈ o.observationTargets ↔ Selected w t := by
  obtain ⟨w1, hok, _, hobs, _⟩ := onDOMContentLoaded_spec w
  exact ⟨w1, _, hok, hobs, rfl, nodup_querySelectorAll _ _, fun t => mem_querySelectorAll _ _ t⟩

/-! ## Properties of the observer callback -/

/-- C2: in every reachable state, for every observed element and every entry
that one of the script's observers delivers for it with a visible ratio of at
least `0.1`, the element has opacity `1` and transform `translateY(0)` after
the callback.  The callback tests `isIntersecting`; the host sets that flag
once the ratio reaches the threshold of the delivering observer, and the
observer the load handler created has threshold `0.1`. -/
theorem C2_ratio_reached_reveals (w0 w : Window) (entries : List IntersectionObserverEntry)
    (e : IntersectionObserverEntry) (o : IntersectionObserver) (hreach : Reachable w0 w)
    (hmem : e ∈ entries) (ho : o ∈ w.observers) (hdel : e.DeliveredBy o)
    (hratio : 1 / 10 ≤ e.intersectionRatio) :
    ∃ s, styleOf (observerCallback entries w) e.target = some s ∧
      s.opacity = "1" ∧ s.transform = "translateY(0)" := by
  obtain ⟨hobservers, hdoc⟩ := hreach.invariant
  rw [hobservers, List.mem_singleton] at ho
  subst ho
  obtain ⟨htarget, _, _, hflag⟩ := hdel
  obtain ⟨el0, hd0, _⟩ := (mem_querySelectorAll _ _ _).mp htarget
  obtain ⟨r, hr⟩ := hdoc e.target
  rw [hd0] at hr
  have hpos : (0 : ℚ) < e.intersectionRatio := lt_of_lt_of_le (by norm_num) hratio
  have hthreshold : (1 / 10 : ℚ) ≤ e.intersectionRatio := hratio
  exact ⟨_, styleOf_observerCallback_of_mem hmem (hflag hpos hthreshold) hr, rfl, rfl⟩

theorem C2_ratio_reached_reveals_witness :
    Reachable samplePage sampleLoaded ∧
      (⟨0, true, 1 / 4⟩ : IntersectionObserverEntry) ∈ sampleBatch ∧
      (⟨1 / 10, [0, 2]⟩ : IntersectionObserver) ∈ sampleLoaded.observers ∧
      (⟨0, true, 1 / 4⟩ : IntersectionObserverEntry).DeliveredBy ⟨1 / 10, [0, 2]⟩ ∧
      (1 / 10 : ℚ) ≤ 1 / 4 ∧
      ∃ s, styleOf (observerCallback sampleBatch sampleLoaded) 0 = some s ∧
        s.opacity = "1" ∧ s.transform = "translateY(0)" :=
  have hmem : (⟨0, true, 1 / 4⟩ : IntersectionObserverEntry) ∈ sampleBatch :=
    List.mem_cons_self _ _
  have ho : (⟨1 / 10, [0, 2]⟩ : IntersectionObserver) ∈ sampleLoaded.observers :=
    List.mem_singleton.mpr rfl
  have hdel : (⟨0, true, 1 / 4⟩ : IntersectionObserverEntry).DeliveredBy ⟨1 / 10, [0, 2]⟩ := by
    refine ⟨by decide, ?_, ?_, fun _ _ => rfl⟩ <;> norm_num
  have hratio : (1 / 10 : ℚ) ≤ 1 / 4 := by norm_num
  ⟨reachable_sampleLoaded, hmem, ho, hdel, hratio,
    C2_ratio_reached_reveals samplePage sampleLoaded sampleBatch ⟨0, true, 1 / 4⟩
      ⟨1 / 10, [0, 2]⟩ reachable_sampleLoaded hmem ho hdel hratio⟩

/-- C3: an element that does not match `.product-img` has, after the load
handler and after any sequence of observer callbacks for observed elements, the
style it had before the script ran. -/
theorem C3_unselected_untouched (w0 w : Window) (i : Nat) (hreach : Reachable w0 w)
    (hnot : ¬ Selected w0 i) : styleOf w i = styleOf w0 i := by
  obtain ⟨_, hdoc⟩ := hreach.invariant
  obtain ⟨r, hr⟩ := hdoc i
  unfold styleOf
  rw [hr]
  cases hd : w0.document[i]? with
  | none => rfl
  | some el =>
    have hm : ¬ el.matchesClass "product-img" = true := fun hm => hnot ⟨el, hd, hm⟩
    simp [hm]

theorem C3_unselected_untouched_witness :
    Reachable samplePage (observerCallback sampleBatch sampleLoaded) ∧
      ¬ Selected samplePage 1 ∧
      styleOf (observerCallback sampleBatch sampleLoaded) 1 = styleOf samplePage 1 :=
  have hobs : ∀ e ∈ sampleBatch, Observed sampleLoaded e.target := by
    intro e he
    refine ⟨_, List.mem_singleton.mpr rfl, ?_⟩
    simp only [sampleBatch, List.mem_cons, List.mem_singleton, List.not_mem_nil, or_false] at he
    rcases he with rfl | rfl <;> decide
  have hreach : Reachable samplePage (observerCallback sampleBatch sampleLoaded) :=
    Reachable.callback sampleBatch reachable_sampleLoaded hobs
  have hnot : ¬ Selected samplePage 1 := by
    rintro ⟨el, hd, hm⟩
    cases hd
    exact absurd hm (by decide)
  ⟨hreach, hnot, C3_unselected_untouched samplePage _ 1 hreach hnot⟩

/-- C4: once an element is revealed (opacity `1`, transform `translateY(0)`), no
later observer callback changes any of its style attributes, whatever entries,
intersecting or not, the later batches hold. -/
theorem C4_revealed_is_final (w : Window) (i : Nat) (s : Style)
    (batches : List (List IntersectionObserverEntry)) (hs : styleOf w i = some s)
    (hrev : s.opacity = "1" ∧ s.transform = "translateY(0)") :
    styleOf (runCallbacks batches w) i = some s := by
  unfold styleOf at hs ⊢
  rw [runCallbacks_eq_join, observerCallback_document]
  cases hd : w.document[i]? with
  | none => rw [hd] at hs; cases hs
  | some el =>
    rw [hd] at hs
    simp only [Option.map_some', Option.some.injEq] at hs ⊢
    subst hs
    have hfix : (revealElement el).style = el.style := by
      obtain ⟨h1, h2⟩ := hrev
      cases el with
      | mk cl st =>
        cases st with
        | mk o t tr =>
          simp only at h1 h2
          subst h1 h2
          rfl
    split
    · exact hfix
    · rfl

theorem C4_revealed_is_final_witness :
    styleOf (observerCallback sampleBatch sampleLoaded) 0 =
        some { opacity := "1", transform := "translateY(0)",
               transition := "opacity 0.5s ease, transform 0.5s ease" } ∧
      ("1" = "1" ∧ "translateY(0)" = "translateY(0)") ∧
      styleOf
          (runCallbacks [[⟨0, false, 0⟩], [⟨0, true, 1⟩, ⟨2, false, 0⟩]]
            (observerCallback sampleBatch sampleLoaded)) 0 =
        some { opacity := "1", transform := "translateY(0)",
               transition := "opacity 0.5s ease, transform 0.5s ease" } :=
  ⟨rfl, ⟨rfl, rfl⟩,
    C4_revealed_is_final (observerCallback sampleBatch sampleLoaded) 0 _
      [[⟨0, false, 0⟩], [⟨0, true, 1⟩, ⟨2, false, 0⟩]] rfl ⟨rfl, rfl⟩⟩

/-- C7: a callback changes only the targets of its intersecting entries: an
element that is not the target of an entry with `isIntersecting` true keeps all
its style attributes, also when the batch holds non-intersecting entries for
it. -/
theorem C7_callback_frame (entries : List IntersectionObserverEntry) (w : Window) (i : Nat)
    (hnot : ∀ e ∈ entries, e.isIntersecting = true → e.target ≠ i) :
    styleOf (observerCallback entries w) i = styleOf w i := by
  unfold styleOf
  rw [observerCallback_document, revealsTarget_eq_false hnot]
  cases w.document[i]? <;> rfl

theorem C7_callback_frame_witness :
    (∀ e ∈ sampleBatch, e.isIntersecting = true → e.target ≠ 2) ∧
      styleOf (observerCallback sampleBatch sampleLoaded) 2 = styleOf sampleLoaded 2 :=
  have hnot : ∀ e ∈ sampleBatch, e.isIntersecting = true → e.target ≠ 2 := by
    intro e he
    simp only [sampleBatch, List.mem_cons, List.mem_singleton, List.not_mem_nil, or_false] at he
    rcases he with rfl | rfl <;> decide
  ⟨hnot, C7_callback_frame sampleBatch sampleLoaded 2 hnot⟩

/-- C8: in every reachable state each selected element is either hidden
(opacity `0`, transform `translateY(20px)`) or revealed (opacity `1`, transform
`translateY(0)`), never a mixture of the two, and its transition is the one
the load handler declared. -/
theorem C8_hidden_or_revealed (w0 w : Window) (i : Nat) (hreach : Reachable w0 w)
    (hsel : Selected w0 i) :
    ∃ s, styleOf w i = some s ∧
      ((s.opacity = "0" ∧ s.transform = "translateY(20px)") ∨
        (s.opacity = "1" ∧ s.transform = "translateY(0)")) ∧
      ¬ (s.opacity = "0" ∧ s.transform = "translateY(0)") ∧
      ¬ (s.opacity = "1" ∧ s.transform = "translateY(20px)") ∧
      s.transition = "opacity 0.5s ease, transform 0.5s ease" := by
  obtain ⟨_, hdoc⟩ := hreach.invariant
  obtain ⟨r, hr⟩ := hdoc i
  obtain ⟨el, hd, hm⟩ := hsel
  rw [hd] at hr
  simp only [Option.map_some', hm, if_true] at hr
  unfold styleOf
  rw [hr]
  cases r with
  | false =>
    refine ⟨(hideElement el).style, rfl, Or.inl ⟨rfl, rfl⟩, ?_, ?_, rfl⟩
    · rintro ⟨_, h2⟩
      exact absurd h2 (by show "translateY(20px)" ≠ "translateY(0)"; decide)
    · rintro ⟨h1, _⟩
      exact absurd h1 (by show "0" ≠ "1"; decide)
  | true =>
    refine ⟨(revealElement (hideElement el)).style, rfl, Or.inr ⟨rfl, rfl⟩, ?_, ?_, rfl⟩
    · rintro ⟨h1, _⟩
      exact absurd h1 (by show "1" ≠ "0"; decide)
    · rintro ⟨_, h2⟩
      exact absurd h2 (by show "translateY(0)" ≠ "translateY(20px)"; decide)

theorem C8_hidden_or_revealed_witness :
    Reachable samplePage (observerCallback [⟨2, true, 1 / 2⟩] sampleLoaded) ∧
      Selected samplePage 2 ∧
      ∃ s, styleOf (observerCallback [⟨2, true, 1 / 2⟩] sampleLoaded) 2 = some s ∧
        ((s.opacity = "0" ∧ s.transform = "translateY(20px)") ∨
          (s.opacity = "1" ∧ s.transform = "translateY(0)")) ∧
        ¬ (s.opacity = "0" ∧ s.transform = "translateY(0)") ∧
        ¬ (s.opacity = "1" ∧ s.transform = "translateY(20px)") ∧
        s.transition = "opacity 0.5s ease, transform 0.5s ease" :=
  have hobs : ∀ e ∈ [(⟨2, true, 1 / 2⟩ : IntersectionObserverEntry)],
      Observed sampleLoaded e.target := by
    intro e he
    rw [List.mem_singleton] at he
    subst he
    exact ⟨_, List.mem_singleton.mpr rfl, by decide⟩
  have hreach : Reachable samplePage (observerCallback [⟨2, true, 1 / 2⟩] sampleLoaded) :=
    Reachable.callback _ reachable_sampleLoaded hobs
  ⟨hreach, ⟨_, rfl, rfl⟩, C8_hidden_or_revealed samplePage _ 2 hreach ⟨_, rfl, rfl⟩⟩

/-- C9: the callback reads only the target and the `isIntersecting` flag of an
entry: two batches that agree on these, entry by entry, give the same result,
and an intersecting entry whose ratio is below `0.1` still reveals its
target. -/
theorem C9_ratio_not_read (es1 es2 : List IntersectionObserverEntry) (w : Window)
    (hagree : es1.map (fun e => (e.target, e.isIntersecting)) =
      es2.map (fun e => (e.target, e.isIntersecting))) :
    observerCallback es1 w = observerCallback es2 w ∧
      ∀ e ∈ es1, e.isIntersecting = true → e.intersectionRatio < 1 / 10 →
        ∀ el, w.document[e.target]? = some el →
          ∃ s, styleOf (observerCallback es1 w) e.target = some s ∧
            s.opacity = "1" ∧ s.transform = "translateY(0)" := by
  constructor
  · apply observerCallback_congr
    intro i
    rw [revealsTarget_eq_map, revealsTarget_eq_map, hagree]
  · intro e hmem hint _ el hd
    exact ⟨_, styleOf_observerCallback_of_mem hmem hint hd, rfl, rfl⟩

theorem C9_ratio_not_read_witness :
    ([⟨0, true, 1 / 20⟩, ⟨2, false, 0⟩] : List IntersectionObserverEntry).map
          (fun e => (e.target, e.isIntersecting)) =
        ([⟨0, true, 1⟩, ⟨2, false, 1 / 2⟩] : List IntersectionObserverEntry).map
          (fun e => (e.target, e.isIntersecting)) ∧
      observerCallback [⟨0, true, 1 / 20⟩, ⟨2, false, 0⟩] sampleLoaded =
        observerCallback [⟨0, true, 1⟩, ⟨2, false, 1 / 2⟩] sampleLoaded ∧
      ∃ s, styleOf (observerCallback [⟨0, true, 1 / 20⟩, ⟨2, false, 0⟩] sampleLoaded) 0 =
          some s ∧ s.opacity = "1" ∧ s.transform = "translateY(0)" :=
  have h := C9_ratio_not_read [⟨0, true, 1 / 20⟩, ⟨2, false, 0⟩]
    [⟨0, true, 1⟩, ⟨2, false, 1 / 2⟩] sampleLoaded rfl
  ⟨rfl, h.1, h.2 ⟨0, true, 1 / 20⟩ (List.mem_cons_self _ _) rfl (by norm_num) _ rfl⟩

/-- C10: the callback does not depend on how the host batches and orders the
entries: a permutation of a batch gives the same result, delivering the
entries one per callback gives the same result, and processing a batch a
second time changes nothing. -/
theorem C10_batching_insensitive (es es2 : List IntersectionObserverEntry) (w : Window)
    (hperm : es.Perm es2) :
    observerCallback es2 w = observerCallback es w ∧
      runCallbacks (es.map fun e => [e]) w = observerCallback es w ∧
      observerCallback es (observerCallback es w) = observerCallback es w := by
  refine ⟨?_, ?_, ?_⟩
  · exact observerCallback_congr (fun i => (revealsTarget_perm hperm i).symm) w
  · rw [runCallbacks_eq_join, flatten_map_singleton]
  · rw [← observerCallback_append]
    apply observerCallback_congr
    intro i
    rw [revealsTarget_append, Bool.or_self]

theorem C10_batching_insensitive_witness :
    sampleBatch.Perm sampleBatch.reverse ∧
      observerCallback sampleBatch.reverse sampleLoaded =
        observerCallback sampleBatch sampleLoaded ∧
      runCallbacks (sampleBatch.map fun e => [e]) sampleLoaded =
        observerCallback sampleBatch sampleLoaded ∧
      observerCallback sampleBatch (observerCallback sampleBatch sampleLoaded) =
        observerCallback sampleBatch sampleLoaded :=
  ⟨(List.reverse_perm sampleBatch).symm,
    C10_batching_insensitive sampleBatch sampleBatch.reverse sampleLoaded
      (List.reverse_perm sampleBatch).symm⟩

end GothicVibeShop
